import Mathlib

/-!
Shallow embedding of the process-orchestrator supervision engine.

The Rust sources embedded here are src/stateful_process.rs (per-process
state machine and OS adapter calls), src/event_pump.rs (the event loop,
engine state and per-event handlers) and src/config.rs (spec loading,
abstracted as an oracle outcome).

Modelling conventions:
- Win32 HANDLE values and process ids are opaque tokens, modelled as Nat.
- f64 metric and threshold values are modelled as Rat; the engine only
  stores and strictly compares them, so no float arithmetic is lost.
- Every OS interaction is driven by an oracle (OsInput) supplying the
  outcome the OS would return, and every OS resource action performed by
  a handler is recorded in a ghost list of OsCall values.
- Fallible Rust code returning Result propagates an Option OrchestratorError
  in the StepResult; partial mutations made before an early return are kept,
  as in the source.
-/

namespace ProcessOrchestrator

/-- Stop method variants from stateful_process.rs (CtrlC or Terminate). -/
inductive StatefulProcessStopMethod where
  | CtrlC : StatefulProcessStopMethod
  | Terminate : StatefulProcessStopMethod
deriving DecidableEq

/-- Embedding of struct StatefulProcessConfig (stateful_process.rs, lines 45-56).
The environment-variable HashMap is modelled as an association list. -/
structure StatefulProcessConfig where
  name : String
  executable : String
  arguments : Option (List String)
  working_directory : Option String
  log_file : Option String
  stop_method : Option StatefulProcessStopMethod
  environment_variables : Option (List (String × String))
  recycle_on_memory_mbs : Option ℚ
  recycle_on_duration_secs : Option ℚ
deriving DecidableEq

/-- Embedding of struct StatefulProcess (stateful_process.rs, lines 34-43).
The register_handle field lives inside os_handler_context in the source;
it is inlined here together with the handle-owned fields. -/
structure StatefulProcess where
  id : String
  config : StatefulProcessConfig
  memory_usage_mbs : Option ℚ
  duration_secs : Option ℚ
  register_handle : Option Nat
  process_handle : Option Nat
  pid : Option Nat
  log_file_handle : Option Nat
deriving DecidableEq

/-- Ghost record of one OS resource action performed by the engine. -/
inductive OsCall where
  | createFile (handle : Nat) : OsCall
  | createProcess (handle : Nat) (pid : Nat) : OsCall
  | registerWait (handle : Nat) : OsCall
  | terminateProcess (handle : Nat) : OsCall
  | closeHandle (handle : Nat) : OsCall
  | unregisterWait (handle : Nat) : OsCall
  | generateConsoleCtrlEvent (pid : Nat) : OsCall
deriving DecidableEq

/-- Error values a handler can return (errors.rs plus the io::Error raised
by a failed CreateProcessA, modelled as SpawnOsError). -/
inductive OrchestratorError where
  | ConfigLoadFailed : OrchestratorError
  | CtrlcSetHandlerFailed : OrchestratorError
  | SpawnOsError : OrchestratorError
  | ProcessNotificationRegistrationFailed : OrchestratorError
deriving DecidableEq

/-- Embedding of enum Event (event_pump.rs, lines 20-31). -/
inductive Event where
  | OrchestratorStarting : Event
  | OrchestratorTick : Event
  | OrchestratorRequestStop : Event
  | OrchestratorStopping : Event
  | ProcessConfigLoaded (config : StatefulProcessConfig) : Event
  | ProcessRequestStart (name : String) : Event
  | ProcessRequestPoll (process_id : String) : Event
  | ProcessRequestStop (process_id : String) : Event
  | ProcessStopped (process_id : String) : Event
deriving DecidableEq

/-- Oracle outcomes consulted by start_instance: whether CreateProcessA and
RegisterWaitForSingleObject succeed, the values the OS hands back, and the
five random id characters drawn by nanoid. -/
structure SpawnInput where
  createOk : Bool
  registerOk : Bool
  pidValue : Nat
  processHandleValue : Nat
  logHandleValue : Nat
  registerHandleValue : Nat
  rand5 : String

/-- Oracle outcomes consulted by one poll of one process: the wall-clock
duration GetProcessTimes yields, and the memory value GetProcessMemoryInfo
yields (none when the query fails). -/
structure PollInput where
  durationValue : ℚ
  memoryValue : Option ℚ

/-- Oracle for one dispatched event: ctrlc handler registration outcome,
config-load outcome, spawn outcomes, and per-process-id poll and liveness
outcomes. -/
structure OsInput where
  ctrlcOk : Bool
  loadOk : Bool
  spawn : SpawnInput
  polls : String → PollInput
  running : String → Bool

/-- Embedding of create_process_id (stateful_process.rs, lines 464-472):
the id is the spec name, a dash, and five oracle-drawn characters. -/
def create_process_id (process_name : String) (rand5 : String) : String :=
  process_name ++ "-" ++ rand5

/-- Embedding of StatefulProcess::new (stateful_process.rs, lines 72-91):
every optional field starts absent. -/
def StatefulProcess.new (config : StatefulProcessConfig) (rand5 : String) : StatefulProcess :=
  { id := create_process_id config.name rand5
    config := config
    memory_usage_mbs := none
    duration_secs := none
    register_handle := none
    process_handle := none
    pid := none
    log_file_handle := none }

/-- Embedding of the windows StatefulProcess::start_instance
(stateful_process.rs, lines 108-242). Returns the mutated handle, the ghost
OS calls, and the error if CreateProcessA or wait registration failed;
mutations made before a failing step are kept, as with the source's early
returns through a &mut self. -/
def StatefulProcess.start_instance (self : StatefulProcess) (inp : SpawnInput) :
    StatefulProcess × List OsCall × Option OrchestratorError :=
  let withLog :=
    match self.config.log_file with
    | some _ => ({ self with log_file_handle := some inp.logHandleValue },
                 [OsCall.createFile inp.logHandleValue])
    | none => (self, [])
  if inp.createOk = false then
    (withLog.1, withLog.2, some OrchestratorError.SpawnOsError)
  else
    let spawned := { withLog.1 with
      pid := some inp.pidValue
      process_handle := some inp.processHandleValue }
    let calls := withLog.2 ++ [OsCall.createProcess inp.processHandleValue inp.pidValue]
    if inp.registerOk = false then
      (spawned, calls, some OrchestratorError.ProcessNotificationRegistrationFailed)
    else
      ({ spawned with register_handle := some inp.registerHandleValue },
       calls ++ [OsCall.registerWait inp.registerHandleValue], none)

/-- Embedding of StatefulProcess::is_running (stateful_process.rs, lines
299-313): false when no process handle is owned, otherwise the oracle says
whether GetExitCodeProcess reported STILL_ACTIVE. -/
def StatefulProcess.is_running (self : StatefulProcess) (stillActive : Bool) : Bool :=
  self.process_handle.isSome && stillActive

/-- Embedding of StatefulProcess::send_ctrl_c (stateful_process.rs, lines
315-339): no state changes; emits the console control event when a pid is
known. -/
def StatefulProcess.send_ctrl_c (self : StatefulProcess) : List OsCall :=
  match self.pid with
  | none => []
  | some p => [OsCall.generateConsoleCtrlEvent p]

/-- Embedding of StatefulProcess::terminate (stateful_process.rs, lines
341-357): terminates and closes the process handle, then clears only the
process_handle field. -/
def StatefulProcess.terminate (self : StatefulProcess) : StatefulProcess × List OsCall :=
  match self.process_handle with
  | none => (self, [])
  | some h => ({ self with process_handle := none },
               [OsCall.terminateProcess h, OsCall.closeHandle h])

/-- Embedding of StatefulProcess::request_stop (stateful_process.rs, lines
93-106): no-op without a process handle and pid; CtrlC specs get a console
interrupt, every other stop_method value is terminated. -/
def StatefulProcess.request_stop (self : StatefulProcess) : StatefulProcess × List OsCall :=
  if self.process_handle.isNone || self.pid.isNone then
    (self, [])
  else
    match self.config.stop_method with
    | some StatefulProcessStopMethod.CtrlC => (self, self.send_ctrl_c)
    | _ => self.terminate

/-- Embedding of StatefulProcess::on_stopped (stateful_process.rs, lines
359-368): closes and clears the log file handle when present; nothing else. -/
def StatefulProcess.on_stopped (self : StatefulProcess) : StatefulProcess × List OsCall :=
  match self.log_file_handle with
  | none => (self, [])
  | some h => ({ self with log_file_handle := none }, [OsCall.closeHandle h])

/-- Embedding of StatefulProcess::get_duration_in_seconds (stateful_process.rs,
lines 408-440): none without a process handle, otherwise the oracle duration
(the source never observes a failure of GetProcessTimes). -/
def StatefulProcess.get_duration_in_seconds (self : StatefulProcess) (inp : PollInput) : Option ℚ :=
  if self.process_handle.isNone then none else some inp.durationValue

/-- Embedding of StatefulProcess::get_memory_usage (stateful_process.rs,
lines 442-462): none without a process handle; none when the
GetProcessMemoryInfo query fails. -/
def StatefulProcess.get_memory_usage (self : StatefulProcess) (inp : PollInput) : Option ℚ :=
  if self.process_handle.isNone then none else inp.memoryValue

/-- Embedding of StatefulProcess::poll (stateful_process.rs, lines 370-384):
each metric field is overwritten only when the corresponding query yields a
value; duration first, then memory. The source returns Ok unconditionally. -/
def StatefulProcess.poll (self : StatefulProcess) (inp : PollInput) : StatefulProcess :=
  let afterDuration :=
    match self.get_duration_in_seconds inp with
    | some d => { self with duration_secs := some d }
    | none => self
  match afterDuration.get_memory_usage inp with
  | some m => { afterDuration with memory_usage_mbs := some m }
  | none => afterDuration

/-- Embedding of StatefulProcess::is_recycle_required (stateful_process.rs,
lines 386-406): true when a configured memory threshold is strictly exceeded
by the last polled memory value, or a configured duration threshold is
strictly exceeded by the last polled duration value. -/
def StatefulProcess.is_recycle_required (self : StatefulProcess) : Bool :=
  (match self.config.recycle_on_memory_mbs, self.memory_usage_mbs with
   | some limit_memory_mbs, some current_memory_mbs =>
       decide (current_memory_mbs > limit_memory_mbs)
   | _, _ => false) ||
  (match self.config.recycle_on_duration_secs, self.duration_secs with
   | some limit_duration_secs, some current_duration_secs =>
       decide (current_duration_secs > limit_duration_secs)
   | _, _ => false)

/-- Embedding of struct StatefulProcessOsHandlerContext (stateful_process.rs,
lines 65-69); the sender is implicit in the returned event list. -/
structure StatefulProcessOsHandlerContext where
  register_handle : Option Nat
  process_id : String
deriving DecidableEq

/-- Embedding of wait_or_timer_callback (stateful_process.rs, lines 475-493):
the OS exit callback enqueues ProcessRequestPoll for its process id, then
unregisters its own wait registration. Returns the enqueued events, the ghost
OS calls and the updated context. -/
def wait_or_timer_callback (ctx : StatefulProcessOsHandlerContext) :
    List Event × List OsCall × StatefulProcessOsHandlerContext :=
  ([Event.ProcessRequestPoll ctx.process_id],
   match ctx.register_handle with
   | some r => [OsCall.unregisterWait r]
   | none => [],
   { ctx with register_handle := none })

/-- Helper mirroring an in-place mutation through an iter_mut().find(..):
the first element satisfying the predicate is replaced by the given value. -/
def replaceFirst {α : Type} (q : α → Bool) (y : α) : List α → List α
  | [] => []
  | x :: xs => if q x then y :: xs else x :: replaceFirst q y xs

/-- Helper mirroring Vec::remove at the position of the first element
satisfying the predicate. -/
def removeFirst {α : Type} (q : α → Bool) : List α → List α
  | [] => []
  | x :: xs => if q x then xs else x :: removeFirst q xs

/-- Embedding of the engine-owned fields of struct EventPump
(event_pump.rs, lines 11-18); the channel endpoints are modelled by the
sent-event lists of each step. -/
structure EventPump where
  configs : List StatefulProcessConfig
  processes : List StatefulProcess
  is_stop_requested : Bool
  is_stopped : Bool
deriving DecidableEq

/-- State of EventPump::new (event_pump.rs, lines 34-46) before any event is
processed; the constructor also seeds the queue with OrchestratorStarting. -/
def EventPump.new : EventPump :=
  { configs := [], processes := [], is_stop_requested := false, is_stopped := false }

/-- Result of dispatching one event: the mutated engine, the events sent to
the queue in order, the ghost OS calls, and the error the handler returned. -/
structure StepResult where
  state : EventPump
  sent : List Event
  os : List OsCall
  err : Option OrchestratorError
deriving DecidableEq

/-- Embedding of EventPump::on_orchestrator_starting (event_pump.rs, lines
103-128): register the ctrl-c handler, load the configs (an oracle outcome
over the fixed on-disk list), store them, and enqueue one ProcessConfigLoaded
per loaded config. The tick thread is modelled by tick injections of the
reachability relation. -/
def EventPump.on_orchestrator_starting (self : EventPump)
    (loaded : List StatefulProcessConfig) (inp : OsInput) : StepResult :=
  if inp.ctrlcOk = false then
    ⟨self, [], [], some OrchestratorError.CtrlcSetHandlerFailed⟩
  else if inp.loadOk = false then
    ⟨self, [], [], some OrchestratorError.ConfigLoadFailed⟩
  else
    ⟨{ self with configs := loaded }, loaded.map Event.ProcessConfigLoaded, [], none⟩

/-- Embedding of EventPump::on_orchestrator_tick (event_pump.rs, lines
89-101): poll every process first, then enqueue one ProcessRequestStop per
process whose freshly updated metrics require a recycle. -/
def EventPump.on_orchestrator_tick (self : EventPump) (inp : OsInput) : StepResult :=
  let polled := self.processes.map (fun pr => pr.poll (inp.polls pr.id))
  ⟨{ self with processes := polled },
   (polled.filter (fun pr => pr.is_recycle_required)).map
     (fun pr => Event.ProcessRequestStop pr.id),
   [], none⟩

/-- Embedding of EventPump::on_process_config_loaded (event_pump.rs, lines
130-134): unconditionally enqueue ProcessRequestStart for the config name. -/
def EventPump.on_process_config_loaded (self : EventPump)
    (config : StatefulProcessConfig) : StepResult :=
  ⟨self, [Event.ProcessRequestStart config.name], [], none⟩

/-- Embedding of EventPump::on_orchestrator_request_stop (event_pump.rs,
lines 136-149): latch is_stop_requested; enqueue OrchestratorStopping when no
process is live, otherwise one ProcessRequestStop per live process. -/
def EventPump.on_orchestrator_request_stop (self : EventPump) : StepResult :=
  let state := { self with is_stop_requested := true }
  if state.processes.length = 0 then
    ⟨state, [Event.OrchestratorStopping], [], none⟩
  else
    ⟨state, state.processes.map (fun pr => Event.ProcessRequestStop pr.id), [], none⟩

/-- Embedding of EventPump::on_process_start (event_pump.rs, lines 151-162):
look the name up in the loaded configs (first match); when found, construct a
fresh handle and start it; on a start error the handle is dropped and the
error propagates; on success the handle is pushed onto the live list. No
check for an already-live handle of the same name is performed. -/
def EventPump.on_process_start (self : EventPump) (inp : OsInput)
    (process_name : String) : StepResult :=
  match self.configs.find? (fun cfg => cfg.name == process_name) with
  | none => ⟨self, [], [], none⟩
  | some config =>
      let started := (StatefulProcess.new config inp.spawn.rand5).start_instance inp.spawn
      match started.2.2 with
      | some e => ⟨self, [], started.2.1, some e⟩
      | none => ⟨{ self with processes := self.processes ++ [started.1] },
                 [], started.2.1, none⟩

/-- Embedding of EventPump::on_request_process_stop (event_pump.rs, lines
164-172): find the live handle by id and dispatch its stop method; silently
return when the id is unknown. -/
def EventPump.on_request_process_stop (self : EventPump)
    (process_id : String) : StepResult :=
  match self.processes.find? (fun pr => pr.id == process_id) with
  | none => ⟨self, [], [], none⟩
  | some pr =>
      let stopped := pr.request_stop
      ⟨{ self with
          processes := replaceFirst (fun x => x.id == process_id) stopped.1 self.processes },
       [], stopped.2, none⟩

/-- Embedding of EventPump::on_process_stopped (event_pump.rs, lines
174-202): find the live handle by id (silently return when unknown), run its
on_stopped cleanup, remove it, then enqueue OrchestratorStopping when a
requested stop has drained the live list, or ProcessRequestStart of the spec
name when no stop was requested. -/
def EventPump.on_process_stopped (self : EventPump) (process_id : String) : StepResult :=
  match self.processes.find? (fun pr => pr.id == process_id) with
  | none => ⟨self, [], [], none⟩
  | some pr =>
      let process_name := pr.config.name
      let cleaned := pr.on_stopped
      let remaining := removeFirst (fun x => x.id == process_id) self.processes
      let state := { self with processes := remaining }
      if self.is_stop_requested then
        if remaining.length = 0 then
          ⟨state, [Event.OrchestratorStopping], cleaned.2, none⟩
        else
          ⟨state, [], cleaned.2, none⟩
      else
        ⟨state, [Event.ProcessRequestStart process_name], cleaned.2, none⟩

/-- Embedding of EventPump::on_request_process_poll (event_pump.rs, lines
204-222): find the live handle by id (silently return when unknown), poll it,
then enqueue ProcessStopped when it is no longer running, else
ProcessRequestStop when its metrics require a recycle. -/
def EventPump.on_request_process_poll (self : EventPump) (inp : OsInput)
    (process_id : String) : StepResult :=
  match self.processes.find? (fun pr => pr.id == process_id) with
  | none => ⟨self, [], [], none⟩
  | some pr =>
      let polled := pr.poll (inp.polls process_id)
      let state := { self with
        processes := replaceFirst (fun x => x.id == process_id) polled self.processes }
      if polled.is_running (inp.running process_id) = false then
        ⟨state, [Event.ProcessStopped process_id], [], none⟩
      else if polled.is_recycle_required then
        ⟨state, [Event.ProcessRequestStop process_id], [], none⟩
      else
        ⟨state, [], [], none⟩

/-- Embedding of EventPump::on_orchestrator_stopping (event_pump.rs, lines
224-228): latch is_stopped so the loop exits. -/
def EventPump.on_orchestrator_stopping (self : EventPump) : StepResult :=
  ⟨{ self with is_stopped := true }, [], [], none⟩

/-- Embedding of EventPump::process_message (event_pump.rs, lines 74-87):
dispatch one event to its handler. -/
def EventPump.process_message (self : EventPump)
    (loaded : List StatefulProcessConfig) (inp : OsInput) : Event → StepResult
  | Event.OrchestratorStarting => self.on_orchestrator_starting loaded inp
  | Event.OrchestratorRequestStop => self.on_orchestrator_request_stop
  | Event.OrchestratorStopping => self.on_orchestrator_stopping
  | Event.OrchestratorTick => self.on_orchestrator_tick inp
  | Event.ProcessConfigLoaded config => self.on_process_config_loaded config
  | Event.ProcessRequestStart name => self.on_process_start inp name
  | Event.ProcessRequestPoll process_id => self.on_request_process_poll inp process_id
  | Event.ProcessRequestStop process_id => self.on_request_process_stop process_id
  | Event.ProcessStopped process_id => self.on_process_stopped process_id

/-- Embedding of EventPump::run (event_pump.rs, lines 48-71): repeatedly
check is_stopped, receive the next event and dispatch it; a handler error is
logged and the loop continues. The oracle list doubles as fuel; the front of
the event list is the front of the queue and sent events append at the back. -/
def runPump (loaded : List StatefulProcessConfig) :
    List OsInput → EventPump → List Event → EventPump
  | [], p, _ => p
  | _ :: _, p, [] => p
  | inp :: rest, p, e :: q =>
      if p.is_stopped then p
      else
        runPump loaded rest (p.process_message loaded inp e).state
          (q ++ (p.process_message loaded inp e).sent)

/-- The engine together with the pending contents of its event queue
(front at the head). -/
structure QSys where
  pump : EventPump
  queue : List Event
deriving DecidableEq

/-- Reachability of an engine-plus-queue state for a fixed on-disk config
list. The initial state is EventPump::new with its seeded
OrchestratorStarting event. An engine step dispatches the front event with
an arbitrary OS oracle and appends the sent events, as EventPump::run does
while is_stopped is false. The producer steps model the tick thread, the
ctrl-c and service-stop control handlers, and the OS exit callback
(wait_or_timer_callback), each of which only appends its event to the
queue. -/
inductive Reachable (loaded : List StatefulProcessConfig) : QSys → Prop where
  | init : Reachable loaded ⟨EventPump.new, [Event.OrchestratorStarting]⟩
  | engine (inp : OsInput) {p : EventPump} {e : Event} {q : List Event} :
      Reachable loaded ⟨p, e :: q⟩ → p.is_stopped = false →
      Reachable loaded
        ⟨(p.process_message loaded inp e).state, q ++ (p.process_message loaded inp e).sent⟩
  | tick {p : EventPump} {q : List Event} :
      Reachable loaded ⟨p, q⟩ → Reachable loaded ⟨p, q ++ [Event.OrchestratorTick]⟩
  | controlStop {p : EventPump} {q : List Event} :
      Reachable loaded ⟨p, q⟩ → Reachable loaded ⟨p, q ++ [Event.OrchestratorRequestStop]⟩
  | exitCallback (i : String) {p : EventPump} {q : List Event} :
      Reachable loaded ⟨p, q⟩ → Reachable loaded ⟨p, q ++ [Event.ProcessRequestPoll i]⟩

/-- Concrete spec without a log file, used to drive concrete traces. -/
def cfgA : StatefulProcessConfig :=
  { name := "a", executable := "a.exe", arguments := none, working_directory := none
    log_file := none, stop_method := none, environment_variables := none
    recycle_on_memory_mbs := none, recycle_on_duration_secs := none }

/-- Concrete spec with a log file, used to drive concrete traces. -/
def cfgB : StatefulProcessConfig :=
  { name := "b", executable := "b.exe", arguments := none, working_directory := none
    log_file := some "b.log", stop_method := none, environment_variables := none
    recycle_on_memory_mbs := none, recycle_on_duration_secs := none }

/-- Concrete oracle where every OS operation succeeds and every process is
reported alive. -/
def inpOk : OsInput :=
  { ctrlcOk := true, loadOk := true
    spawn := { createOk := true, registerOk := true, pidValue := 42
               processHandleValue := 7, logHandleValue := 9
               registerHandleValue := 3, rand5 := "11111" }
    polls := fun _ => { durationValue := 0, memoryValue := none }
    running := fun _ => true }

/-- Concrete oracle like inpOk, except every process is reported exited. -/
def inpDead : OsInput :=
  { inpOk with running := fun _ => false }

/-- Concrete oracle like inpOk, except CreateProcessA fails. -/
def inpSpawnFail : OsInput :=
  { inpOk with spawn := { inpOk.spawn with createOk := false } }

/-- Concrete handle of spec cfgA in its spawned state. -/
def procLive : StatefulProcess :=
  { id := "a-11111", config := cfgA, memory_usage_mbs := none, duration_secs := none
    register_handle := some 3, process_handle := some 7, pid := some 42
    log_file_handle := none }

/-- Concrete engine state that has latched a stop request while one handle
is still live. -/
def pumpStopReq : EventPump :=
  { configs := [cfgA], processes := [procLive], is_stop_requested := true
    is_stopped := false }

/-- Concrete engine state with one live handle and no stop requested. -/
def pumpRun : EventPump :=
  { configs := [cfgA], processes := [procLive], is_stop_requested := false
    is_stopped := false }

/-- Concrete engine state with loaded configs and no live handle. -/
def pumpIdle : EventPump :=
  { configs := [cfgA], processes := [], is_stop_requested := false
    is_stopped := false }

/-- Trace for the drain-law counterexample, step 1: seed plus an injected
stop request processed behind OrchestratorStarting. -/
def c2Sys1 : QSys :=
  ⟨(EventPump.new.process_message [cfgA] inpOk Event.OrchestratorStarting).state,
   [Event.OrchestratorRequestStop] ++
     (EventPump.new.process_message [cfgA] inpOk Event.OrchestratorStarting).sent⟩

/-- Trace for the drain-law counterexample, step 2: the stop request is
processed before the queued ProcessConfigLoaded event. -/
def c2Sys2 : QSys :=
  ⟨(c2Sys1.pump.process_message [cfgA] inpOk Event.OrchestratorRequestStop).state,
   [Event.ProcessConfigLoaded cfgA] ++
     (c2Sys1.pump.process_message [cfgA] inpOk Event.OrchestratorRequestStop).sent⟩

/-- Trace for the terminate counterexample, step 1: OrchestratorStarting. -/
def c4Sys1 : QSys :=
  ⟨(EventPump.new.process_message [cfgA] inpOk Event.OrchestratorStarting).state,
   [] ++ (EventPump.new.process_message [cfgA] inpOk Event.OrchestratorStarting).sent⟩

/-- Trace for the terminate counterexample, step 2: ProcessConfigLoaded. -/
def c4Sys2 : QSys :=
  ⟨(c4Sys1.pump.process_message [cfgA] inpOk (Event.ProcessConfigLoaded cfgA)).state,
   [] ++ (c4Sys1.pump.process_message [cfgA] inpOk (Event.ProcessConfigLoaded cfgA)).sent⟩

/-- Trace for the terminate counterexample, step 3: ProcessRequestStart with
a successful spawn. -/
def c4Sys3 : QSys :=
  ⟨(c4Sys2.pump.process_message [cfgA] inpOk (Event.ProcessRequestStart "a")).state,
   [] ++ (c4Sys2.pump.process_message [cfgA] inpOk (Event.ProcessRequestStart "a")).sent⟩

/-- Trace for the terminate counterexample, step 4: the control source
injects OrchestratorRequestStop. -/
def c4Sys4 : QSys :=
  ⟨c4Sys3.pump, c4Sys3.queue ++ [Event.OrchestratorRequestStop]⟩

/-- Trace for the terminate counterexample, step 5: the stop request fans
out one ProcessRequestStop for the live handle. -/
def c4Sys5 : QSys :=
  ⟨(c4Sys4.pump.process_message [cfgA] inpOk Event.OrchestratorRequestStop).state,
   [] ++ (c4Sys4.pump.process_message [cfgA] inpOk Event.OrchestratorRequestStop).sent⟩

/-- Trace for the terminate counterexample, step 6: ProcessRequestStop
terminates the handle in place. -/
def c4Sys6 : QSys :=
  ⟨(c4Sys5.pump.process_message [cfgA] inpOk (Event.ProcessRequestStop "a-11111")).state,
   [] ++ (c4Sys5.pump.process_message [cfgA] inpOk (Event.ProcessRequestStop "a-11111")).sent⟩

/-- Trace for the cleanup counterexample, step 1: OrchestratorStarting with
the log-file spec cfgB. -/
def c6Sys1 : QSys :=
  ⟨(EventPump.new.process_message [cfgB] inpOk Event.OrchestratorStarting).state,
   [] ++ (EventPump.new.process_message [cfgB] inpOk Event.OrchestratorStarting).sent⟩

/-- Trace for the cleanup counterexample, step 2: ProcessConfigLoaded. -/
def c6Sys2 : QSys :=
  ⟨(c6Sys1.pump.process_message [cfgB] inpOk (Event.ProcessConfigLoaded cfgB)).state,
   [] ++ (c6Sys1.pump.process_message [cfgB] inpOk (Event.ProcessConfigLoaded cfgB)).sent⟩

/-- Trace for the cleanup counterexample, step 3: ProcessRequestStart with a
successful spawn that owns a process handle and a log handle. -/
def c6Sys3 : QSys :=
  ⟨(c6Sys2.pump.process_message [cfgB] inpOk (Event.ProcessRequestStart "b")).state,
   [] ++ (c6Sys2.pump.process_message [cfgB] inpOk (Event.ProcessRequestStart "b")).sent⟩

/-- Trace for the cleanup counterexample, step 4: the OS exit callback
injects ProcessRequestPoll. -/
def c6Sys4 : QSys :=
  ⟨c6Sys3.pump, c6Sys3.queue ++ [Event.ProcessRequestPoll "b-11111"]⟩

/-- Trace for the cleanup counterexample, step 5: the poll observes the
child exited and enqueues ProcessStopped. -/
def c6Sys5 : QSys :=
  ⟨(c6Sys4.pump.process_message [cfgB] inpDead (Event.ProcessRequestPoll "b-11111")).state,
   [] ++ (c6Sys4.pump.process_message [cfgB] inpDead (Event.ProcessRequestPoll "b-11111")).sent⟩

/-- Number of live handles whose spec name is n. -/
def liveNameCount (n : String) (p : EventPump) : Nat :=
  p.processes.countP (fun pr => pr.config.name == n)

/-- Number of future ProcessRequestStart events for name n that one queued
event can still give rise to: a queued request-start counts one, a queued
ProcessConfigLoaded counts one when its config carries the name, and the
seeded OrchestratorStarting counts one per loaded config carrying the name. -/
def eventWeight (loaded : List StatefulProcessConfig) (n : String) : Event → Nat
  | Event.OrchestratorStarting => loaded.countP (fun c => c.name == n)
  | Event.ProcessConfigLoaded c => if c.name == n then 1 else 0
  | Event.ProcessRequestStart m => if m == n then 1 else 0
  | _ => 0

/-- Total eventWeight of a queue segment. -/
def queueWeight (loaded : List StatefulProcessConfig) (n : String) (q : List Event) : Nat :=
  (q.map (eventWeight loaded n)).sum

theorem mem_replaceFirst {α : Type} {q : α → Bool} {y z : α} :
    ∀ {l : List α}, z ∈ replaceFirst q y l → z = y ∨ z ∈ l
  | [], h => by simp [replaceFirst] at h
  | x :: xs, h => by
      by_cases hx : q x
      · simp [replaceFirst, hx] at h
        rcases h with h | h
        · exact Or.inl h
        · exact Or.inr (List.mem_cons_of_mem x h)
      · simp [replaceFirst, hx] at h
        rcases h with h | h
        · exact Or.inr (h ▸ List.mem_cons_self x xs)
        · rcases mem_replaceFirst h with h1 | h1
          · exact Or.inl h1
          · exact Or.inr (List.mem_cons_of_mem x h1)

theorem mem_removeFirst {α : Type} {q : α → Bool} {z : α} :
    ∀ {l : List α}, z ∈ removeFirst q l → z ∈ l
  | [], h => by simp [removeFirst] at h
  | x :: xs, h => by
      by_cases hx : q x
      · simp [removeFirst, hx] at h
        exact List.mem_cons_of_mem x h
      · simp [removeFirst, hx] at h
        rcases h with h | h
        · exact h ▸ List.mem_cons_self x xs
        · exact List.mem_cons_of_mem x (mem_removeFirst h)

theorem replaceFirst_countP {α : Type} (q pr : α → Bool) {y x : α} :
    ∀ {l : List α}, l.find? q = some x → pr y = pr x →
      (replaceFirst q y l).countP pr = l.countP pr
  | [], hf, _ => by simp [List.find?] at hf
  | a :: t, hf, hxy => by
      by_cases ha : q a
      · rw [List.find?_cons_of_pos _ ha] at hf
        cases hf
        simp [replaceFirst, ha, List.countP_cons, hxy]
      · rw [List.find?_cons_of_neg _ ha] at hf
        simp [replaceFirst, ha, List.countP_cons,
          replaceFirst_countP q pr hf hxy]

theorem removeFirst_countP {α : Type} (q pr : α → Bool) {x : α} :
    ∀ {l : List α}, l.find? q = some x →
      l.countP pr = (removeFirst q l).countP pr + (if pr x then 1 else 0)
  | [], hf => by simp [List.find?] at hf
  | a :: t, hf => by
      by_cases ha : q a
      · rw [List.find?_cons_of_pos _ ha] at hf
        cases hf
        simp [removeFirst, ha, List.countP_cons]
      · rw [List.find?_cons_of_neg _ ha] at hf
        simp [removeFirst, ha, List.countP_cons]
        rw [removeFirst_countP q pr hf]
        omega

theorem countP_beq_le_one {α : Type} (f : α → String) :
    ∀ {l : List α}, (l.map f).Nodup → ∀ b : String,
      l.countP (fun x => f x == b) ≤ 1
  | [], _, b => by simp
  | a :: t, h, b => by
      rw [List.map_cons, List.nodup_cons] at h
      rw [List.countP_cons]
      by_cases hb : f a = b
      · have hz : t.countP (fun x => f x == b) = 0 := by
          apply List.countP_eq_zero.mpr
          intro x hx
          simp only [beq_iff_eq]
          intro he
          exact h.1 (hb ▸ he ▸ List.mem_map_of_mem f hx)
        simp [hz, hb]
      · have := countP_beq_le_one f h.2 b
        simpa [hb] using this

theorem poll_frame (pr : StatefulProcess) (inp : PollInput) :
    (pr.poll inp).id = pr.id ∧ (pr.poll inp).config = pr.config ∧
    (pr.poll inp).pid = pr.pid ∧ (pr.poll inp).process_handle = pr.process_handle ∧
    (pr.poll inp).register_handle = pr.register_handle ∧
    (pr.poll inp).log_file_handle = pr.log_file_handle := by
  unfold StatefulProcess.poll
  dsimp only
  split <;> split <;> simp_all [StatefulProcess.get_memory_usage,
    StatefulProcess.get_duration_in_seconds]

theorem request_stop_frame (pr : StatefulProcess) :
    pr.request_stop.1.id = pr.id ∧ pr.request_stop.1.config = pr.config ∧
    pr.request_stop.1.memory_usage_mbs = pr.memory_usage_mbs ∧
    pr.request_stop.1.duration_secs = pr.duration_secs ∧
    pr.request_stop.1.register_handle = pr.register_handle ∧
    pr.request_stop.1.log_file_handle = pr.log_file_handle ∧
    pr.request_stop.1.pid = pr.pid := by
  unfold StatefulProcess.request_stop StatefulProcess.terminate
  split
  · simp
  · split
    · simp
    · split <;> simp

theorem on_stopped_frame (pr : StatefulProcess) :
    pr.on_stopped.1.id = pr.id ∧ pr.on_stopped.1.config = pr.config ∧
    pr.on_stopped.1.memory_usage_mbs = pr.memory_usage_mbs ∧
    pr.on_stopped.1.duration_secs = pr.duration_secs ∧
    pr.on_stopped.1.register_handle = pr.register_handle ∧
    pr.on_stopped.1.process_handle = pr.process_handle ∧
    pr.on_stopped.1.pid = pr.pid := by
  unfold StatefulProcess.on_stopped
  split <;> simp

theorem terminate_frame (pr : StatefulProcess) :
    pr.terminate.1.id = pr.id ∧ pr.terminate.1.config = pr.config ∧
    pr.terminate.1.memory_usage_mbs = pr.memory_usage_mbs ∧
    pr.terminate.1.duration_secs = pr.duration_secs ∧
    pr.terminate.1.register_handle = pr.register_handle ∧
    pr.terminate.1.log_file_handle = pr.log_file_handle ∧
    pr.terminate.1.pid = pr.pid := by
  unfold StatefulProcess.terminate
  split <;> simp

theorem start_instance_frame (pr : StatefulProcess) (inp : SpawnInput) :
    (pr.start_instance inp).1.config = pr.config ∧
    (pr.start_instance inp).1.id = pr.id ∧
    (pr.start_instance inp).1.memory_usage_mbs = pr.memory_usage_mbs ∧
    (pr.start_instance inp).1.duration_secs = pr.duration_secs := by
  cases h : pr.config.log_file <;> cases hc : inp.createOk <;> cases hr : inp.registerOk <;>
    simp [StatefulProcess.start_instance, h, hc, hr]

theorem queueWeight_append (loaded : List StatefulProcessConfig) (n : String)
    (q1 q2 : List Event) :
    queueWeight loaded n (q1 ++ q2) = queueWeight loaded n q1 + queueWeight loaded n q2 := by
  simp [queueWeight]

theorem queueWeight_nil (loaded : List StatefulProcessConfig) (n : String) :
    queueWeight loaded n [] = 0 := rfl

theorem queueWeight_eq_zero {loaded : List StatefulProcessConfig} {n : String}
    {q : List Event} (h : ∀ e ∈ q, eventWeight loaded n e = 0) :
    queueWeight loaded n q = 0 := by
  induction q with
  | nil => rfl
  | cons e t ih =>
      have he := h e (List.mem_cons_self e t)
      have ht := ih (fun x hx => h x (List.mem_cons_of_mem e hx))
      simp [queueWeight] at ht ⊢
      simp [he, ht]

theorem queueWeight_configLoaded (loaded : List StatefulProcessConfig) (n : String)
    (l : List StatefulProcessConfig) :
    queueWeight loaded n (l.map Event.ProcessConfigLoaded) =
      l.countP (fun c => c.name == n) := by
  induction l with
  | nil => rfl
  | cons c t ih =>
      simp only [List.map_cons, queueWeight, List.sum_cons, List.countP_cons] at ih ⊢
      simp only [eventWeight]
      rw [ih]
      by_cases hc : c.name == n <;> simp [hc] <;> omega

theorem queueWeight_requestStops (loaded : List StatefulProcessConfig) (n : String)
    (l : List StatefulProcess) :
    queueWeight loaded n (l.map (fun pr => Event.ProcessRequestStop pr.id)) = 0 := by
  apply queueWeight_eq_zero
  intro e he
  rcases List.mem_map.mp he with ⟨pr, _, rfl⟩
  rfl

/-- Per-event step bound for the name-counting invariant: dispatching one
event can convert queued start potential into a live handle or a live handle
into queued start potential, but never increases their sum. -/
theorem step_bound (loaded : List StatefulProcessConfig) (inp : OsInput)
    (p : EventPump) (e : Event) (n : String) :
    liveNameCount n (p.process_message loaded inp e).state +
      queueWeight loaded n (p.process_message loaded inp e).sent ≤
    liveNameCount n p + eventWeight loaded n e := by
  cases e with
  | OrchestratorStarting =>
      simp only [EventPump.process_message, EventPump.on_orchestrator_starting]
      by_cases h1 : inp.ctrlcOk = false
      · simp [h1, liveNameCount, queueWeight]
      · by_cases h2 : inp.loadOk = false
        · simp [h1, h2, liveNameCount, queueWeight]
        · simp [h1, h2, liveNameCount, queueWeight_configLoaded, eventWeight]
  | OrchestratorTick =>
      simp only [EventPump.process_message, EventPump.on_orchestrator_tick]
      have hcount : (p.processes.map (fun pr => pr.poll (inp.polls pr.id))).countP
          (fun pr => pr.config.name == n) =
          p.processes.countP (fun pr => pr.config.name == n) := by
        rw [List.countP_map]
        apply List.countP_congr
        intro pr _
        simp [Function.comp, (poll_frame pr (inp.polls pr.id)).2.1]
      have hz : queueWeight loaded n
          (((p.processes.map (fun pr => pr.poll (inp.polls pr.id))).filter
            (fun pr => pr.is_recycle_required)).map
              (fun pr => Event.ProcessRequestStop pr.id)) = 0 :=
        queueWeight_requestStops loaded n _
      simp [liveNameCount, hcount, hz, eventWeight]
  | OrchestratorRequestStop =>
      simp only [EventPump.process_message, EventPump.on_orchestrator_request_stop]
      split
      · simp [liveNameCount, queueWeight, eventWeight]
      · simp [liveNameCount, queueWeight_requestStops, eventWeight]
  | OrchestratorStopping =>
      simp [EventPump.process_message, EventPump.on_orchestrator_stopping,
        liveNameCount, queueWeight, eventWeight]
  | ProcessConfigLoaded c =>
      simp [EventPump.process_message, EventPump.on_process_config_loaded,
        liveNameCount, queueWeight, eventWeight]
  | ProcessRequestStart m =>
      simp only [EventPump.process_message, EventPump.on_process_start]
      cases hf : p.configs.find? (fun cfg => cfg.name == m) with
      | none => simp [liveNameCount, queueWeight, eventWeight]
      | some config =>
          have hname : config.name = m := by
            have := List.find?_some hf
            simpa using this
          cases herr : ((StatefulProcess.new config inp.spawn.rand5).start_instance
              inp.spawn).2.2 with
          | some err => simp [herr, liveNameCount, queueWeight, eventWeight]
          | none =>
              have hcfg : ((StatefulProcess.new config inp.spawn.rand5).start_instance
                  inp.spawn).1.config = config :=
                (start_instance_frame (StatefulProcess.new config inp.spawn.rand5)
                  inp.spawn).1
              simp only [herr, liveNameCount, queueWeight_nil, List.countP_append,
                Nat.add_zero, eventWeight]
              have hsingle : List.countP (fun pr => pr.config.name == n)
                  [((StatefulProcess.new config inp.spawn.rand5).start_instance
                    inp.spawn).1] = if (m == n) = true then 1 else 0 := by
                simp only [List.countP_cons, List.countP_nil, hcfg, hname]
                by_cases hmn : (m == n) = true <;> simp [hmn]
              rw [hsingle]
  | ProcessRequestPoll i =>
      simp only [EventPump.process_message, EventPump.on_request_process_poll]
      cases hf : p.processes.find? (fun pr => pr.id == i) with
      | none => simp [liveNameCount, queueWeight, eventWeight]
      | some pr =>
          have hrep : (replaceFirst (fun x => x.id == i) (pr.poll (inp.polls i))
              p.processes).countP (fun x => x.config.name == n) =
              p.processes.countP (fun x => x.config.name == n) :=
            replaceFirst_countP _ _ hf (by simp [(poll_frame pr (inp.polls i)).2.1])
          dsimp only
          split
          · simp [liveNameCount, hrep, queueWeight, eventWeight]
          · split <;> simp [liveNameCount, hrep, queueWeight, eventWeight]
  | ProcessRequestStop i =>
      simp only [EventPump.process_message, EventPump.on_request_process_stop]
      cases hf : p.processes.find? (fun pr => pr.id == i) with
      | none => simp [liveNameCount, queueWeight, eventWeight]
      | some pr =>
          have hrep : (replaceFirst (fun x => x.id == i) pr.request_stop.1
              p.processes).countP (fun x => x.config.name == n) =
              p.processes.countP (fun x => x.config.name == n) :=
            replaceFirst_countP _ _ hf (by simp [(request_stop_frame pr).2.1])
          dsimp only
          simp [liveNameCount, hrep, queueWeight, eventWeight]
  | ProcessStopped i =>
      simp only [EventPump.process_message, EventPump.on_process_stopped]
      cases hf : p.processes.find? (fun pr => pr.id == i) with
      | none => simp [liveNameCount, queueWeight, eventWeight]
      | some pr =>
          have hrem := removeFirst_countP (fun x : StatefulProcess => x.id == i)
            (fun x : StatefulProcess => x.config.name == n) hf
          dsimp only
          split
          · split
            · simp only [liveNameCount, queueWeight, eventWeight, List.map_cons,
                List.sum_cons, List.map_nil, List.sum_nil] at hrem ⊢
              omega
            · simp only [liveNameCount, queueWeight_nil, eventWeight] at hrem ⊢
              omega
          · simp only [liveNameCount, queueWeight, eventWeight, List.map_cons,
              List.sum_cons, List.map_nil, List.sum_nil] at hrem ⊢
            by_cases hn : pr.config.name == n <;> simp [hn] at hrem ⊢ <;> omega

theorem queueWeight_cons (loaded : List StatefulProcessConfig) (n : String)
    (e : Event) (q : List Event) :
    queueWeight loaded n (e :: q) = eventWeight loaded n e + queueWeight loaded n q := by
  simp [queueWeight]

/-- Inductive invariant: for each spec name, the number of live handles plus
the start potential still parked in the queue never exceeds one, provided
the loaded config names are distinct. -/
theorem reachable_name_inv (loaded : List StatefulProcessConfig)
    (hnames : (loaded.map (fun c => c.name)).Nodup)
    {sys : QSys} (h : Reachable loaded sys) (n : String) :
    liveNameCount n sys.pump + queueWeight loaded n sys.queue ≤ 1 := by
  induction h with
  | init =>
      have hle := countP_beq_le_one (fun c : StatefulProcessConfig => c.name) hnames n
      simpa [liveNameCount, EventPump.new, queueWeight, eventWeight] using hle
  | @engine inp p e q hR hstop ih =>
      have hsb := step_bound loaded inp p e n
      have hcons := queueWeight_cons loaded n e q
      dsimp only at ih ⊢
      rw [queueWeight_append]
      omega
  | @tick p q hR ih =>
      dsimp only at ih ⊢
      rw [queueWeight_append]
      have hz : queueWeight loaded n [Event.OrchestratorTick] = 0 := rfl
      omega
  | @controlStop p q hR ih =>
      dsimp only at ih ⊢
      rw [queueWeight_append]
      have hz : queueWeight loaded n [Event.OrchestratorRequestStop] = 0 := rfl
      omega
  | @exitCallback i p q hR ih =>
      dsimp only at ih ⊢
      rw [queueWeight_append]
      have hz : queueWeight loaded n [Event.ProcessRequestPoll i] = 0 := rfl
      omega

/-- The configs field is empty until OrchestratorStarting stores the loaded
list, and is never changed afterwards. -/
theorem reachable_configs (loaded : List StatefulProcessConfig)
    {sys : QSys} (h : Reachable loaded sys) :
    sys.pump.configs = [] ∨ sys.pump.configs = loaded := by
  induction h with
  | init => exact Or.inl rfl
  | @engine inp p e q hR hstop ih =>
      cases e with
      | OrchestratorStarting =>
          simp only [EventPump.process_message, EventPump.on_orchestrator_starting]
          by_cases h1 : inp.ctrlcOk = false
          · simpa [h1] using ih
          · by_cases h2 : inp.loadOk = false
            · simpa [h1, h2] using ih
            · simp [h1, h2]
      | OrchestratorTick =>
          simpa [EventPump.process_message, EventPump.on_orchestrator_tick] using ih
      | OrchestratorRequestStop =>
          simp only [EventPump.process_message, EventPump.on_orchestrator_request_stop]
          split <;> simpa using ih
      | OrchestratorStopping =>
          simpa [EventPump.process_message, EventPump.on_orchestrator_stopping] using ih
      | ProcessConfigLoaded c =>
          simpa [EventPump.process_message, EventPump.on_process_config_loaded] using ih
      | ProcessRequestStart m =>
          simp only [EventPump.process_message, EventPump.on_process_start]
          cases hf : p.configs.find? (fun cfg => cfg.name == m) with
          | none => simpa using ih
          | some config =>
              dsimp only
              cases ((StatefulProcess.new config inp.spawn.rand5).start_instance
                  inp.spawn).2.2 with
              | some err => simpa using ih
              | none => simpa using ih
      | ProcessRequestPoll i =>
          simp only [EventPump.process_message, EventPump.on_request_process_poll]
          cases hf : p.processes.find? (fun pr => pr.id == i) with
          | none => simpa using ih
          | some pr =>
              dsimp only
              split
              · simpa using ih
              · split <;> simpa using ih
      | ProcessRequestStop i =>
          simp only [EventPump.process_message, EventPump.on_request_process_stop]
          cases hf : p.processes.find? (fun pr => pr.id == i) with
          | none => simpa using ih
          | some pr => simpa using ih
      | ProcessStopped i =>
          simp only [EventPump.process_message, EventPump.on_process_stopped]
          cases hf : p.processes.find? (fun pr => pr.id == i) with
          | none => simpa using ih
          | some pr =>
              dsimp only
              split
              · split <;> simpa using ih
              · simpa using ih
  | tick hR ih => exact ih
  | controlStop hR ih => exact ih
  | exitCallback i hR ih => exact ih

/-- Processing ProcessRequestStart changes the number of live handles only
when the name was found among the stored configs; the found config carries
the requested name. -/
theorem on_process_start_insertion (loaded : List StatefulProcessConfig)
    (inp : OsInput) (p : EventPump) (m : String)
    (hlen : (p.process_message loaded inp (Event.ProcessRequestStart m)).state.processes.length ≠
      p.processes.length) :
    ∃ cfg, p.configs.find? (fun c => c.name == m) = some cfg ∧ cfg.name = m := by
  revert hlen
  simp only [EventPump.process_message, EventPump.on_process_start]
  cases hf : p.configs.find? (fun cfg => cfg.name == m) with
  | none => simp
  | some config =>
      intro hlen
      refine ⟨config, rfl, ?_⟩
      have := List.find?_some hf
      simpa using this

/-- C1: in every reachable engine state, for every spec name n the live set
holds at most one handle whose spec name is n (given the spec-mandated
uniqueness of loaded config names); in particular, while a
ProcessRequestStart(n) event is at the front of the queue no live handle for
n exists, and processing it inserts a handle only when n is found among the
loaded configs. -/
theorem c1_at_most_one_live_handle_per_name (loaded : List StatefulProcessConfig)
    (hnames : (loaded.map (fun c => c.name)).Nodup)
    (sys : QSys) (h : Reachable loaded sys) (n : String) :
    sys.pump.processes.countP (fun pr => pr.config.name == n) ≤ 1 ∧
    (∀ q : List Event, sys.queue = Event.ProcessRequestStart n :: q →
      sys.pump.processes.countP (fun pr => pr.config.name == n) = 0) ∧
    (∀ inp : OsInput,
      (sys.pump.process_message loaded inp
          (Event.ProcessRequestStart n)).state.processes.length ≠
        sys.pump.processes.length →
      ∃ cfg, sys.pump.configs.find? (fun c => c.name == n) = some cfg ∧
        cfg.name = n ∧ n ∈ loaded.map (fun c => c.name)) := by
  have hinv := reachable_name_inv loaded hnames h n
  refine ⟨?_, ?_, ?_⟩
  · unfold liveNameCount at hinv
    omega
  · intro q hq
    rw [hq, queueWeight_cons] at hinv
    have hw : eventWeight loaded n (Event.ProcessRequestStart n) = 1 := by
      simp [eventWeight]
    unfold liveNameCount at hinv
    omega
  · intro inp hlen
    obtain ⟨cfg, hfind, hname⟩ := on_process_start_insertion loaded inp sys.pump n hlen
    rcases reachable_configs loaded h with hc | hc
    · rw [hc] at hfind
      simp at hfind
    · refine ⟨cfg, hfind, hname, ?_⟩
      have hmem : cfg ∈ sys.pump.configs := List.mem_of_find?_eq_some hfind
      rw [hc] at hmem
      exact hname ▸ List.mem_map_of_mem (fun c => c.name) hmem

theorem c1_at_most_one_live_handle_per_name_witness :
    (([] : List StatefulProcessConfig).map (fun c => c.name)).Nodup ∧
    EventPump.new.processes.countP (fun pr => pr.config.name == "a") ≤ 1 :=
  ⟨by simp,
   (c1_at_most_one_live_handle_per_name [] (by simp) _ Reachable.init "a").1⟩

/-- C2 counterexample: in a reachable state where stop_requested has latched
(a control stop raced ahead of the queued ProcessConfigLoaded event),
processing the next queued event enqueues ProcessRequestStart, so a
subsequent event CAN enqueue ProcessRequestStart after stop_requested. -/
theorem c2_counterexample :
    Reachable [cfgA] c2Sys2 ∧
    c2Sys2.pump.is_stop_requested = true ∧
    c2Sys2.queue.head? = some (Event.ProcessConfigLoaded cfgA) ∧
    (c2Sys2.pump.process_message [cfgA] inpOk
        (Event.ProcessConfigLoaded cfgA)).sent = [Event.ProcessRequestStart "a"] := by
  have h0 : Reachable [cfgA] ⟨EventPump.new,
      [Event.OrchestratorStarting, Event.OrchestratorRequestStop]⟩ :=
    Reachable.controlStop Reachable.init
  have h1 : Reachable [cfgA] c2Sys1 := Reachable.engine inpOk h0 rfl
  have h2 : Reachable [cfgA] c2Sys2 := Reachable.engine inpOk h1 rfl
  exact ⟨h2, by decide, by decide, by decide⟩

/-- C4 counterexample: a reachable state whose only live handle has
os_process absent but pid still present — StatefulProcess::terminate clears
only process_handle, so the claimed invariant fails after a forcible stop. -/
theorem c4_counterexample :
    Reachable [cfgA] c4Sys6 ∧
    c4Sys6.pump.processes.map (fun pr => (pr.process_handle, pr.pid)) =
      [(none, some 42)] := by
  have h1 : Reachable [cfgA] c4Sys1 := Reachable.engine inpOk Reachable.init rfl
  have h2 : Reachable [cfgA] c4Sys2 := Reachable.engine inpOk h1 rfl
  have h3 : Reachable [cfgA] c4Sys3 := Reachable.engine inpOk h2 rfl
  have h4 : Reachable [cfgA] c4Sys4 := Reachable.controlStop h3
  have h5 : Reachable [cfgA] c4Sys5 := Reachable.engine inpOk h4 rfl
  have h6 : Reachable [cfgA] c4Sys6 := Reachable.engine inpOk h5 rfl
  exact ⟨h6, by decide⟩

/-- C6 counterexample: in a reachable state processing ProcessStopped for a
live handle that owns process handle 7, log handle 9 and wait registration 3,
the on-exit cleanup performs exactly one OS action — closing the log handle —
so it neither closes the OS process handle nor unregisters the exit wait. -/
theorem c6_counterexample :
    Reachable [cfgB] c6Sys5 ∧
    c6Sys5.queue = [Event.ProcessStopped "b-11111"] ∧
    c6Sys5.pump.processes.map
      (fun pr => (pr.process_handle, pr.register_handle, pr.log_file_handle)) =
      [(some 7, some 3, some 9)] ∧
    (c6Sys5.pump.process_message [cfgB] inpOk
        (Event.ProcessStopped "b-11111")).os = [OsCall.closeHandle 9] := by
  have h1 : Reachable [cfgB] c6Sys1 := Reachable.engine inpOk Reachable.init rfl
  have h2 : Reachable [cfgB] c6Sys2 := Reachable.engine inpOk h1 rfl
  have h3 : Reachable [cfgB] c6Sys3 := Reachable.engine inpOk h2 rfl
  have h4 : Reachable [cfgB] c6Sys4 := Reachable.exitCallback "b-11111" h3
  have h5 : Reachable [cfgB] c6Sys5 := Reachable.engine inpDead h4 rfl
  exact ⟨h5, by decide, by decide, by decide⟩

/-- C2 amended: once stop_requested is true, no handler other than
ProcessConfigLoaded (which unconditionally enqueues ProcessRequestStart,
refuting the original drain law) ever enqueues a ProcessRequestStart; and
OrchestratorStopping is enqueued exactly when the event is
OrchestratorRequestStop with the live set empty, or ProcessStopped of a live
handle whose removal leaves the live set empty. -/
theorem c2_amended_drain_law (loaded : List StatefulProcessConfig) (inp : OsInput)
    (p : EventPump) (e : Event) (hstop : p.is_stop_requested = true)
    (hncl : ∀ c, e ≠ Event.ProcessConfigLoaded c) :
    (∀ m, Event.ProcessRequestStart m ∉ (p.process_message loaded inp e).sent) ∧
    (Event.OrchestratorStopping ∈ (p.process_message loaded inp e).sent ↔
      (e = Event.OrchestratorRequestStop ∧ p.processes = []) ∨
      (∃ i pr, e = Event.ProcessStopped i ∧
        p.processes.find? (fun x => x.id == i) = some pr ∧
        removeFirst (fun x => x.id == i) p.processes = [])) := by
  cases e with
  | OrchestratorStarting =>
      simp only [EventPump.process_message, EventPump.on_orchestrator_starting]
      by_cases h1 : inp.ctrlcOk = false
      · simp [h1]
      · by_cases h2 : inp.loadOk = false
        · simp [h1, h2]
        · simp [h1, h2, List.mem_map]
  | OrchestratorTick =>
      simp [EventPump.process_message, EventPump.on_orchestrator_tick, List.mem_map]
  | OrchestratorRequestStop =>
      simp only [EventPump.process_message, EventPump.on_orchestrator_request_stop]
      split
      · rename_i hlen
        simp only [List.length_eq_zero] at hlen
        simp [hlen]
      · rename_i hlen
        simp only [List.length_eq_zero] at hlen
        simp [hlen, List.mem_map]
  | OrchestratorStopping =>
      simp [EventPump.process_message, EventPump.on_orchestrator_stopping]
  | ProcessConfigLoaded c => exact absurd rfl (hncl c)
  | ProcessRequestStart m =>
      simp only [EventPump.process_message, EventPump.on_process_start]
      cases hf : p.configs.find? (fun cfg => cfg.name == m) with
      | none => simp
      | some config =>
          dsimp only
          cases ((StatefulProcess.new config inp.spawn.rand5).start_instance
              inp.spawn).2.2 with
          | some err => simp
          | none => simp
  | ProcessRequestPoll i =>
      simp only [EventPump.process_message, EventPump.on_request_process_poll]
      cases hf : p.processes.find? (fun pr => pr.id == i) with
      | none => simp
      | some pr =>
          dsimp only
          split
          · simp
          · split <;> simp
  | ProcessRequestStop i =>
      simp only [EventPump.process_message, EventPump.on_request_process_stop]
      cases hf : p.processes.find? (fun pr => pr.id == i) with
      | none => simp
      | some pr => simp
  | ProcessStopped i =>
      simp only [EventPump.process_message, EventPump.on_process_stopped]
      cases hf : p.processes.find? (fun pr => pr.id == i) with
      | none =>
          constructor
          · intro m
            simp
          · constructor
            · intro hmem
              simp at hmem
            · rintro (⟨heq, _⟩ | ⟨j, pr, heq, hfind, _⟩)
              · cases heq
              · cases heq
                rw [hf] at hfind
                cases hfind
      | some pr0 =>
          dsimp only
          rw [hstop]
          simp only [if_true]
          split
          · rename_i hlen
            simp only [List.length_eq_zero] at hlen
            constructor
            · intro m
              simp
            · constructor
              · intro _
                exact Or.inr ⟨i, pr0, rfl, hf, hlen⟩
              · intro _
                simp
          · rename_i hlen
            simp only [List.length_eq_zero] at hlen
            constructor
            · intro m
              simp
            · constructor
              · intro hmem
                simp at hmem
              · rintro (⟨heq, _⟩ | ⟨j, pr, heq, hfind, hrem⟩)
                · cases heq
                · cases heq
                  exact absurd hrem hlen

theorem c2_amended_drain_law_witness :
    pumpStopReq.is_stop_requested = true ∧
    Event.ProcessRequestStart "a" ∉
      (pumpStopReq.process_message [cfgA] inpOk (Event.ProcessStopped "a-11111")).sent :=
  ⟨rfl,
   (c2_amended_drain_law [cfgA] inpOk pumpStopReq (Event.ProcessStopped "a-11111")
     rfl (by intro c h; cases h)).1 "a"⟩

/-- C3 counterexample: in an engine state where stop_requested is already
true and one handle is live, a second OrchestratorRequestStop enqueues a
further ProcessRequestStop event, so the event-level idempotence claimed by
the spec does not hold. -/
theorem c3_counterexample :
    pumpStopReq.is_stop_requested = true ∧
    (pumpStopReq.process_message [cfgA] inpOk Event.OrchestratorRequestStop).sent =
      [Event.ProcessRequestStop "a-11111"] :=
  ⟨rfl, by decide⟩

/-- C3 amended: a second OrchestratorRequestStop while stop_requested is
already true leaves the whole engine state unchanged, returns no error and
touches no OS resource, but it re-enqueues OrchestratorStopping when the
live set is empty and one ProcessRequestStop per live handle otherwise. -/
theorem c3_amended_second_stop (loaded : List StatefulProcessConfig) (inp : OsInput)
    (p : EventPump) (hstop : p.is_stop_requested = true) :
    (p.process_message loaded inp Event.OrchestratorRequestStop).state = p ∧
    (p.process_message loaded inp Event.OrchestratorRequestStop).sent =
      (if p.processes.length = 0 then [Event.OrchestratorStopping]
       else p.processes.map (fun pr => Event.ProcessRequestStop pr.id)) ∧
    (p.process_message loaded inp Event.OrchestratorRequestStop).err = none ∧
    (p.process_message loaded inp Event.OrchestratorRequestStop).os = [] := by
  obtain ⟨configs, processes, sreq, stopped⟩ := p
  cases hstop
  simp only [EventPump.process_message, EventPump.on_orchestrator_request_stop]
  split <;> simp_all

theorem c3_amended_second_stop_witness :
    pumpStopReq.is_stop_requested = true ∧
    (pumpStopReq.process_message [cfgA] inpOk Event.OrchestratorRequestStop).state =
      pumpStopReq :=
  ⟨rfl, (c3_amended_second_stop [cfgA] inpOk pumpStopReq rfl).1⟩

theorem start_instance_ok_pid (pr : StatefulProcess) (inp : SpawnInput)
    (h : (pr.start_instance inp).2.2 = none) :
    (pr.start_instance inp).1.pid = some inp.pidValue := by
  cases hl : pr.config.log_file <;> cases hc : inp.createOk <;>
    cases hr : inp.registerOk <;>
    simp [StatefulProcess.start_instance, hl, hc, hr] at h ⊢

/-- Every handler preserves the fact that all live handles carry a pid:
handles are pushed only after a fully successful spawn, and no operation
ever clears the pid field. -/
theorem step_pid_isSome (loaded : List StatefulProcessConfig) (inp : OsInput)
    (p : EventPump) (e : Event)
    (h : ∀ pr ∈ p.processes, pr.pid.isSome = true) :
    ∀ pr ∈ (p.process_message loaded inp e).state.processes, pr.pid.isSome = true := by
  cases e with
  | OrchestratorStarting =>
      simp only [EventPump.process_message, EventPump.on_orchestrator_starting]
      by_cases h1 : inp.ctrlcOk = false
      · simpa [h1] using h
      · by_cases h2 : inp.loadOk = false
        · simpa [h1, h2] using h
        · simpa [h1, h2] using h
  | OrchestratorTick =>
      simp only [EventPump.process_message, EventPump.on_orchestrator_tick]
      intro pr hpr
      rcases List.mem_map.mp hpr with ⟨x, hx, rfl⟩
      rw [(poll_frame x (inp.polls x.id)).2.2.1]
      exact h x hx
  | OrchestratorRequestStop =>
      simp only [EventPump.process_message, EventPump.on_orchestrator_request_stop]
      split <;> simpa using h
  | OrchestratorStopping =>
      simpa [EventPump.process_message, EventPump.on_orchestrator_stopping] using h
  | ProcessConfigLoaded c =>
      simpa [EventPump.process_message, EventPump.on_process_config_loaded] using h
  | ProcessRequestStart m =>
      simp only [EventPump.process_message, EventPump.on_process_start]
      cases hf : p.configs.find? (fun cfg => cfg.name == m) with
      | none => simpa using h
      | some config =>
          dsimp only
          cases herr : ((StatefulProcess.new config inp.spawn.rand5).start_instance
              inp.spawn).2.2 with
          | some err => simpa using h
          | none =>
              intro pr hpr
              rcases List.mem_append.mp hpr with hold | hnew
              · exact h pr hold
              · rw [List.mem_singleton.mp hnew,
                  start_instance_ok_pid (StatefulProcess.new config inp.spawn.rand5)
                    inp.spawn herr]
                rfl
  | ProcessRequestPoll i =>
      simp only [EventPump.process_message, EventPump.on_request_process_poll]
      cases hf : p.processes.find? (fun pr => pr.id == i) with
      | none => simpa using h
      | some pr0 =>
          have hmem0 : pr0 ∈ p.processes := List.mem_of_find?_eq_some hf
          have hpoll : (pr0.poll (inp.polls i)).pid.isSome = true := by
            rw [(poll_frame pr0 (inp.polls i)).2.2.1]
            exact h pr0 hmem0
          dsimp only
          have hrep : ∀ pr ∈ replaceFirst (fun x => x.id == i) (pr0.poll (inp.polls i))
              p.processes, pr.pid.isSome = true := by
            intro pr hpr
            rcases mem_replaceFirst hpr with rfl | hold
            · exact hpoll
            · exact h pr hold
          split
          · simpa using hrep
          · split <;> simpa using hrep
  | ProcessRequestStop i =>
      simp only [EventPump.process_message, EventPump.on_request_process_stop]
      cases hf : p.processes.find? (fun pr => pr.id == i) with
      | none => simpa using h
      | some pr0 =>
          have hmem0 : pr0 ∈ p.processes := List.mem_of_find?_eq_some hf
          dsimp only
          intro pr hpr
          rcases mem_replaceFirst hpr with rfl | hold
          · rw [(request_stop_frame pr0).2.2.2.2.2.2]
            exact h pr0 hmem0
          · exact h pr hold
  | ProcessStopped i =>
      simp only [EventPump.process_message, EventPump.on_process_stopped]
      cases hf : p.processes.find? (fun pr => pr.id == i) with
      | none => simpa using h
      | some pr0 =>
          dsimp only
          have hrem : ∀ pr ∈ removeFirst (fun x : StatefulProcess => x.id == i)
              p.processes, pr.pid.isSome = true :=
            fun pr hpr => h pr (mem_removeFirst hpr)
          split
          · split <;> simpa using hrem
          · simpa using hrem

/-- In every reachable state, every live handle carries a pid: the live set
only ever receives handles whose spawn fully succeeded. -/
theorem reachable_live_pid_isSome (loaded : List StatefulProcessConfig)
    {sys : QSys} (h : Reachable loaded sys) :
    ∀ pr ∈ sys.pump.processes, pr.pid.isSome = true := by
  induction h with
  | init => simp [EventPump.new]
  | @engine inp p e q hR hstop ih => exact step_pid_isSome loaded inp p e ih
  | tick hR ih => exact ih
  | controlStop hR ih => exact ih
  | exitCallback i hR ih => exact ih

/-- C4 amended: a freshly constructed handle has os_process, pid, both
metrics and the exit registration all absent, so the claimed invariant holds
at construction; in every reachable state every live handle carries a pid
(it was fully spawned); but terminate clears only the os_process field and
leaves every other field — including pid — untouched, which is why the
claimed implication from absent os_process fails after a forcible stop. -/
theorem c4_amended_handle_fields (loaded : List StatefulProcessConfig) (sys : QSys)
    (h : Reachable loaded sys) :
    (∀ (cfg : StatefulProcessConfig) (r : String),
      (StatefulProcess.new cfg r).process_handle = none ∧
      (StatefulProcess.new cfg r).pid = none ∧
      (StatefulProcess.new cfg r).memory_usage_mbs = none ∧
      (StatefulProcess.new cfg r).duration_secs = none ∧
      (StatefulProcess.new cfg r).register_handle = none) ∧
    (∀ pr ∈ sys.pump.processes, pr.pid.isSome = true) ∧
    (∀ pr : StatefulProcess, pr.terminate.1 = { pr with process_handle := none }) := by
  refine ⟨?_, reachable_live_pid_isSome loaded h, ?_⟩
  · intro cfg r
    simp [StatefulProcess.new]
  · intro pr
    unfold StatefulProcess.terminate
    cases hh : pr.process_handle with
    | none => simp [← hh]
    | some v => simp

theorem c4_amended_handle_fields_witness :
    (StatefulProcess.new cfgA "11111").process_handle = none ∧
    (StatefulProcess.new cfgA "11111").pid = none ∧
    (StatefulProcess.new cfgA "11111").memory_usage_mbs = none ∧
    (StatefulProcess.new cfgA "11111").duration_secs = none ∧
    (StatefulProcess.new cfgA "11111").register_handle = none :=
  (c4_amended_handle_fields [] _ Reachable.init).1 cfgA "11111"

/-- C5: processing ProcessStopped for a live handle enqueues exactly one
ProcessRequestStart carrying the handle's spec name when stop_requested is
false; when stop_requested is true it enqueues exactly OrchestratorStopping
if the removal empties the live set (hence no ProcessRequestStart), and
nothing otherwise. -/
theorem c5_restart_law (loaded : List StatefulProcessConfig) (inp : OsInput)
    (p : EventPump) (i : String) (pr : StatefulProcess)
    (hf : p.processes.find? (fun x => x.id == i) = some pr) :
    (p.is_stop_requested = false →
      (p.process_message loaded inp (Event.ProcessStopped i)).sent =
        [Event.ProcessRequestStart pr.config.name]) ∧
    (p.is_stop_requested = true →
      removeFirst (fun x => x.id == i) p.processes = [] →
      (p.process_message loaded inp (Event.ProcessStopped i)).sent =
        [Event.OrchestratorStopping]) ∧
    (p.is_stop_requested = true →
      removeFirst (fun x => x.id == i) p.processes ≠ [] →
      (p.process_message loaded inp (Event.ProcessStopped i)).sent = []) := by
  simp only [EventPump.process_message, EventPump.on_process_stopped, hf]
  refine ⟨?_, ?_, ?_⟩
  · intro hstop
    simp [hstop]
  · intro hstop hrem
    simp [hstop, hrem]
  · intro hstop hrem
    have hlen : ¬ (removeFirst (fun x => x.id == i) p.processes).length = 0 := by
      intro hz
      exact hrem (List.length_eq_zero.mp hz)
    simp [hstop, hlen]

theorem c5_restart_law_witness :
    pumpRun.processes.find? (fun x => x.id == "a-11111") = some procLive ∧
    (pumpRun.process_message [cfgA] inpOk (Event.ProcessStopped "a-11111")).sent =
      [Event.ProcessRequestStart procLive.config.name] :=
  ⟨by decide,
   (c5_restart_law [cfgA] inpOk pumpRun "a-11111" procLive (by decide)).1 rfl⟩

/-- C6 amended: the on-exit cleanup run while processing ProcessStopped for
a live handle closes exactly the log-file handle when one is owned and
performs no other OS action — in particular it neither closes the OS process
handle nor unregisters the exit wait; unregistration is instead performed by
the OS exit callback itself, which enqueues ProcessRequestPoll and
unregisters its own wait registration; the OS process handle is closed only
by terminate. -/
theorem c6_amended_cleanup (loaded : List StatefulProcessConfig) (inp : OsInput)
    (p : EventPump) (i : String) (pr : StatefulProcess)
    (hf : p.processes.find? (fun x => x.id == i) = some pr)
    (ctx : StatefulProcessOsHandlerContext) :
    (p.process_message loaded inp (Event.ProcessStopped i)).os =
      (match pr.log_file_handle with
       | some h => [OsCall.closeHandle h]
       | none => []) ∧
    (wait_or_timer_callback ctx).1 = [Event.ProcessRequestPoll ctx.process_id] ∧
    (wait_or_timer_callback ctx).2.1 =
      (match ctx.register_handle with
       | some r => [OsCall.unregisterWait r]
       | none => []) := by
  refine ⟨?_, rfl, rfl⟩
  simp only [EventPump.process_message, EventPump.on_process_stopped, hf]
  split
  · split <;> (cases hl : pr.log_file_handle <;> simp [StatefulProcess.on_stopped, hl])
  · cases hl : pr.log_file_handle <;> simp [StatefulProcess.on_stopped, hl]

theorem c6_amended_cleanup_witness :
    pumpRun.processes.find? (fun x => x.id == "a-11111") = some procLive ∧
    (pumpRun.process_message [cfgA] inpOk (Event.ProcessStopped "a-11111")).os = [] := by
  refine ⟨by decide, ?_⟩
  have h := (c6_amended_cleanup [cfgA] inpOk pumpRun "a-11111" procLive (by decide)
    ⟨some 3, "a-11111"⟩).1
  simpa [procLive] using h

/-- C7: is_recycle_required is true exactly when a configured memory
threshold exists together with a polled memory value strictly above it, or a
configured duration threshold exists together with a polled duration value
strictly above it; absent metrics or absent thresholds never trigger a
recycle, and both comparisons are strict. -/
theorem c7_recycle_strict_thresholds (pr : StatefulProcess) :
    pr.is_recycle_required = true ↔
      (∃ lim cur, pr.config.recycle_on_memory_mbs = some lim ∧
        pr.memory_usage_mbs = some cur ∧ cur > lim) ∨
      (∃ lim cur, pr.config.recycle_on_duration_secs = some lim ∧
        pr.duration_secs = some cur ∧ cur > lim) := by
  unfold StatefulProcess.is_recycle_required
  cases hm : pr.config.recycle_on_memory_mbs <;>
    cases hmu : pr.memory_usage_mbs <;>
    cases hd : pr.config.recycle_on_duration_secs <;>
    cases hdu : pr.duration_secs <;>
    simp [hm, hmu, hd, hdu]

/-- C8: when CreateProcessA fails while handling ProcessRequestStart for a
loaded name, the engine state is completely unchanged (in particular the
handle is not inserted), no event is enqueued, the spawn error is returned
to the dispatcher (which logs it), and the run loop goes on to process the
remaining queued events instead of terminating. -/
theorem c8_spawn_failure_containment (loaded : List StatefulProcessConfig)
    (inp : OsInput) (inps : List OsInput) (p : EventPump) (n : String)
    (cfg : StatefulProcessConfig) (q : List Event)
    (hcfg : p.configs.find? (fun c => c.name == n) = some cfg)
    (hfail : inp.spawn.createOk = false) (hrun : p.is_stopped = false) :
    (p.process_message loaded inp (Event.ProcessRequestStart n)).state = p ∧
    (p.process_message loaded inp (Event.ProcessRequestStart n)).sent = [] ∧
    (p.process_message loaded inp (Event.ProcessRequestStart n)).err =
      some OrchestratorError.SpawnOsError ∧
    runPump loaded (inp :: inps) p (Event.ProcessRequestStart n :: q) =
      runPump loaded inps p q := by
  have herr : ((StatefulProcess.new cfg inp.spawn.rand5).start_instance inp.spawn).2.2 =
      some OrchestratorError.SpawnOsError := by
    cases hl : cfg.log_file <;>
      simp [StatefulProcess.start_instance, StatefulProcess.new, hl, hfail]
  have hmain : (p.process_message loaded inp (Event.ProcessRequestStart n)).state = p ∧
      (p.process_message loaded inp (Event.ProcessRequestStart n)).sent = [] ∧
      (p.process_message loaded inp (Event.ProcessRequestStart n)).err =
        some OrchestratorError.SpawnOsError := by
    simp [EventPump.process_message, EventPump.on_process_start, hcfg, herr]
  refine ⟨hmain.1, hmain.2.1, hmain.2.2, ?_⟩
  rw [runPump]
  simp [hrun, hmain.1, hmain.2.1]

theorem c8_spawn_failure_containment_witness :
    pumpIdle.configs.find? (fun c => c.name == "a") = some cfgA ∧
    inpSpawnFail.spawn.createOk = false ∧
    pumpIdle.is_stopped = false ∧
    (pumpIdle.process_message [cfgA] inpSpawnFail (Event.ProcessRequestStart "a")).state =
      pumpIdle :=
  ⟨by decide, rfl, rfl,
   (c8_spawn_failure_containment [cfgA] inpSpawnFail [] pumpIdle "a" cfgA []
     (by decide) rfl rfl).1⟩

/-- C9: poll is total (the tick and poll handlers return no error) and never
clears a recorded metric: with no process handle the poll is the identity,
a failed memory query leaves the memory metric unchanged, a present metric
stays present across poll, and terminate, on_stopped and request_stop never
touch either metric field. -/
theorem c9_poll_metric_retention (inp : PollInput) (pr : StatefulProcess) :
    (pr.process_handle = none → pr.poll inp = pr) ∧
    (inp.memoryValue = none →
      (pr.poll inp).memory_usage_mbs = pr.memory_usage_mbs) ∧
    (pr.memory_usage_mbs.isSome = true →
      ((pr.poll inp).memory_usage_mbs).isSome = true) ∧
    (pr.duration_secs.isSome = true →
      ((pr.poll inp).duration_secs).isSome = true) ∧
    (pr.terminate.1.memory_usage_mbs = pr.memory_usage_mbs ∧
      pr.terminate.1.duration_secs = pr.duration_secs) ∧
    (pr.on_stopped.1.memory_usage_mbs = pr.memory_usage_mbs ∧
      pr.on_stopped.1.duration_secs = pr.duration_secs) ∧
    (pr.request_stop.1.memory_usage_mbs = pr.memory_usage_mbs ∧
      pr.request_stop.1.duration_secs = pr.duration_secs) ∧
    (∀ (loaded : List StatefulProcessConfig) (osi : OsInput) (p : EventPump),
      (p.process_message loaded osi Event.OrchestratorTick).err = none ∧
      ∀ i, (p.process_message loaded osi (Event.ProcessRequestPoll i)).err = none) := by
  refine ⟨?_, ?_, ?_, ?_,
    ⟨(terminate_frame pr).2.2.1, (terminate_frame pr).2.2.2.1⟩,
    ⟨(on_stopped_frame pr).2.2.1, (on_stopped_frame pr).2.2.2.1⟩,
    ⟨(request_stop_frame pr).2.2.1, (request_stop_frame pr).2.2.2.1⟩, ?_⟩
  · intro hh
    unfold StatefulProcess.poll
    dsimp only
    simp [StatefulProcess.get_duration_in_seconds, StatefulProcess.get_memory_usage, hh]
  · intro hmem
    unfold StatefulProcess.poll
    dsimp only
    cases hh : pr.process_handle <;>
      simp [StatefulProcess.get_duration_in_seconds,
        StatefulProcess.get_memory_usage, hh, hmem]
  · intro hsome
    unfold StatefulProcess.poll
    dsimp only
    cases hh : pr.process_handle <;>
      cases hmv : inp.memoryValue <;>
      simp_all [StatefulProcess.get_duration_in_seconds,
        StatefulProcess.get_memory_usage, hh, hmv]
  · intro hsome
    unfold StatefulProcess.poll
    dsimp only
    cases hh : pr.process_handle <;>
      cases hmv : inp.memoryValue <;>
      simp_all [StatefulProcess.get_duration_in_seconds,
        StatefulProcess.get_memory_usage, hh, hmv]
  · intro loaded osi p
    constructor
    · simp [EventPump.process_message, EventPump.on_orchestrator_tick]
    · intro i
      simp only [EventPump.process_message, EventPump.on_request_process_poll]
      cases hf : p.processes.find? (fun x => x.id == i) with
      | none => simp
      | some pr0 =>
          dsimp only
          split
          · simp
          · split <;> simp

theorem c9_poll_metric_retention_witness :
    (StatefulProcess.new cfgA "11111").process_handle = none ∧
    (StatefulProcess.new cfgA "11111").poll { durationValue := 5, memoryValue := some 3 } =
      StatefulProcess.new cfgA "11111" :=
  ⟨rfl,
   (c9_poll_metric_retention { durationValue := 5, memoryValue := some 3 }
     (StatefulProcess.new cfgA "11111")).1 rfl⟩

/-- C10: processing ProcessStopped, ProcessRequestStop or ProcessRequestPoll
for an id carried by no live handle is a complete no-op — the state is
unchanged, nothing is enqueued, no OS call is made, and the handler returns
without error. -/
theorem c10_unknown_id_noops (loaded : List StatefulProcessConfig) (inp : OsInput)
    (p : EventPump) (i : String)
    (hf : p.processes.find? (fun pr => pr.id == i) = none) :
    p.process_message loaded inp (Event.ProcessStopped i) = ⟨p, [], [], none⟩ ∧
    p.process_message loaded inp (Event.ProcessRequestStop i) = ⟨p, [], [], none⟩ ∧
    p.process_message loaded inp (Event.ProcessRequestPoll i) = ⟨p, [], [], none⟩ := by
  refine ⟨?_, ?_, ?_⟩
  · simp [EventPump.process_message, EventPump.on_process_stopped, hf]
  · simp [EventPump.process_message, EventPump.on_request_process_stop, hf]
  · simp [EventPump.process_message, EventPump.on_request_process_poll, hf]

theorem c10_unknown_id_noops_witness :
    pumpIdle.processes.find? (fun pr => pr.id == "zzz") = none ∧
    pumpIdle.process_message [cfgA] inpOk (Event.ProcessStopped "zzz") =
      ⟨pumpIdle, [], [], none⟩ :=
  ⟨rfl, (c10_unknown_id_noops [cfgA] inpOk pumpIdle "zzz" rfl).1⟩

end ProcessOrchestrator
